import Mathlib

/-!
Verification development for the xm125 breathing-rate feasibility scripts.

The repository has three relevant scripts:
* `xm125_breathing_refapp_pi.py` — radar acquisition loop: per processed frame it
  derives a quality flag, latches a "radar enter time", and writes one CSV row;
* `belt_logger.py` — belt acquisition loop: polls the belt driver, writes rows
  with an "is new value" flag, and returns distinct exit codes;
* `analyze_session.py` — offline merge (pandas `merge_asof`, nearest, with
  tolerance) and feasibility metrics.

Timestamps, distances and rates are modelled as rationals (the Python code uses
floats; none of the checked properties depend on rounding).  Missing CSV fields
are modelled as `Option.none`.
-/

namespace XM125

/-! ### Radar acquisition loop (`xm125_breathing_refapp_pi.py`) -/

/-- `presence_res` object fields used by the loop.  `presence_distance` can be
`None` in the SDK, which the loop checks for explicitly. -/
structure PresenceResult where
  presence_detected : Bool
  presence_distance : Option ℚ
  intra_presence_score : ℚ
  inter_presence_score : ℚ
  deriving DecidableEq, Repr

/-- `breathing_res` object: the loop only reads `breathing_rate`.  Python tests
it with `if br:`, so `None` and `0.0` are both falsy. -/
structure BreathingResult where
  breathing_rate : Option ℚ
  deriving DecidableEq, Repr

/-- One processed frame as consumed by the radar loop body, together with the
relative timestamp `current_time` computed just before the row is written. -/
structure Frame where
  breathing_result : Option BreathingResult
  presence_result : Option PresenceResult
  current_time : ℚ
  deriving DecidableEq, Repr

/-- `ENTER_DISTANCE_MIN = 0.4` in the script. -/
def ENTER_DISTANCE_MIN : ℚ := 2/5

/-- `ENTER_DISTANCE_MAX = 0.7` in the script. -/
def ENTER_DISTANCE_MAX : ℚ := 7/10

/-- `ratio = 1.0` in the script (a global scale on the reported BPM). -/
def bpmScale : ℚ := 1

/-- Python truthiness of the optional breathing rate: `if br:` is taken iff the
rate is present and nonzero. -/
def rateTruthy : Option ℚ → Bool
  | none => false
  | some r => decide (r ≠ 0)

/-- The quality classification of one frame: the `Quality_Flag` string and the
`Breath_Rate_BPM` field (`none` = written blank).  Mirrors the
`if breathing_res is not None: ... elif presence_res is not None: ... else: ...`
cascade of the loop body. -/
def classifyQuality (f : Frame) : String × Option ℚ :=
  match f.breathing_result with
  | some br =>
      match br.breathing_rate with
      | some r =>
          if r ≠ 0 then ("breathing", some (r * bpmScale))
          else ("breathing_no_rate", none)
      | none => ("breathing_no_rate", none)
  | none =>
      match f.presence_result with
      | some _ => ("presence_only", none)
      | none => ("none", none)

/-- The guard under which the loop records `radar_enter_time`: presence result
available, `presence_detected`, distance not `None`, and
`ENTER_DISTANCE_MIN <= presence_distance <= ENTER_DISTANCE_MAX`. -/
def enterCond (f : Frame) : Bool :=
  match f.presence_result with
  | none => false
  | some p =>
      p.presence_detected &&
        match p.presence_distance with
        | none => false
        | some d => decide (ENTER_DISTANCE_MIN ≤ d) && decide (d ≤ ENTER_DISTANCE_MAX)

/-- One update of the `radar_enter_time` latch (it is assigned only when it is
still `None` and the guard holds). -/
def stepEnter (st : Option ℚ) (f : Frame) : Option ℚ :=
  match st with
  | some t => some t
  | none => if enterCond f then some f.current_time else none

/-- The fields of one radar CSV row that the claims are about. -/
structure RadarRow where
  timestamp : ℚ
  quality_flag : String
  breath_rate_bpm : Option ℚ
  radar_enter_time : Option ℚ
  deriving DecidableEq, Repr

/-- The radar loop body, iterated over a list of frames with the current value
of the `radar_enter_time` latch: the latch is updated first (the guard sits in
the presence-handling block), then the row is written with the updated value. -/
def radarLoop : List Frame → Option ℚ → List RadarRow
  | [], _ => []
  | f :: rest, enter =>
      let enter' := stepEnter enter f
      let q := classifyQuality f
      { timestamp := f.current_time
        quality_flag := q.1
        breath_rate_bpm := q.2
        radar_enter_time := enter' } :: radarLoop rest enter'

/-- The rows written for a session: the latch starts `None`. -/
def radarRows (frames : List Frame) : List RadarRow :=
  radarLoop frames none

theorem radarLoop_length (frames : List Frame) (e : Option ℚ) :
    (radarLoop frames e).length = frames.length := by
  induction frames generalizing e with
  | nil => rfl
  | cons f rest ih => simp [radarLoop, ih]

/-- Row `i` carries the classification of frame `i`, whatever the latch state. -/
theorem radarLoop_classify (frames : List Frame) (e : Option ℚ) (i : ℕ)
    (row : RadarRow) (f : Frame)
    (hrow : (radarLoop frames e)[i]? = some row) (hf : frames[i]? = some f) :
    row.quality_flag = (classifyQuality f).1 ∧
      row.breath_rate_bpm = (classifyQuality f).2 := by
  induction frames generalizing e i with
  | nil => simp at hf
  | cons g rest ih =>
      cases i with
      | zero =>
          simp [radarLoop] at hrow
          simp at hf
          subst hf
          simp [← hrow]
      | succ j =>
          simp [radarLoop] at hrow
          simp at hf
          exact ih _ _ hrow hf

/-- Row `i` carries the latch value obtained by folding the update over the
first `i+1` frames. -/
theorem radarLoop_enter (frames : List Frame) (e : Option ℚ) (i : ℕ)
    (row : RadarRow) (hrow : (radarLoop frames e)[i]? = some row) :
    row.radar_enter_time =
      Option.or e ((List.find? enterCond (frames.take (i + 1))).map Frame.current_time) := by
  induction frames generalizing e i with
  | nil => simp [radarLoop] at hrow
  | cons g rest ih =>
      cases i with
      | zero =>
          simp [radarLoop] at hrow
          cases e with
          | some t => simp [← hrow, stepEnter]
          | none =>
              simp [← hrow, stepEnter, List.find?]
              by_cases h : enterCond g
              · simp [h]
              · simp [h]
      | succ j =>
          simp [radarLoop] at hrow
          have := ih (stepEnter e g) j hrow
          cases e with
          | some t => simpa [stepEnter] using this
          | none =>
              cases hg : enterCond g with
              | false =>
                  simp [stepEnter, hg] at this
                  simpa [List.find?, hg] using this
              | true =>
                  simp [stepEnter, hg] at this
                  simpa [List.find?, hg] using this

/-- C1: every radar CSV row's quality flag is one of the four states, chosen by
the precedence of the loop body: a breathing result with a positive rate gives
`breathing` (with a non-blank `Breath_Rate_BPM`); a breathing result whose rate
is absent or zero (Python-falsy, i.e. not yet usable) gives `breathing_no_rate`;
no breathing result but a presence result gives `presence_only`; neither gives
`none`; and a row flagged `breathing` never has a blank rate field. -/
theorem radar_quality_flag_precedence (frames : List Frame) (i : ℕ)
    (row : RadarRow) (f : Frame)
    (hrow : (radarRows frames)[i]? = some row) (hf : frames[i]? = some f) :
    (row.quality_flag = "breathing" ∨ row.quality_flag = "breathing_no_rate" ∨
      row.quality_flag = "presence_only" ∨ row.quality_flag = "none") ∧
    (∀ br r, f.breathing_result = some br → br.breathing_rate = some r → 0 < r →
      row.quality_flag = "breathing" ∧ row.breath_rate_bpm = some (r * bpmScale)) ∧
    (∀ br, f.breathing_result = some br → rateTruthy br.breathing_rate = false →
      row.quality_flag = "breathing_no_rate" ∧ row.breath_rate_bpm = none) ∧
    (f.breathing_result = none → f.presence_result ≠ none →
      row.quality_flag = "presence_only") ∧
    (f.breathing_result = none → f.presence_result = none →
      row.quality_flag = "none") ∧
    (row.quality_flag = "breathing" → row.breath_rate_bpm ≠ none) := by
  obtain ⟨hq, hb⟩ := radarLoop_classify frames none i row f hrow hf
  constructor
  · rw [hq]
    cases hbre : f.breathing_result with
    | some br =>
        cases hr : br.breathing_rate with
        | some r =>
            by_cases h0 : r = 0
            · simp [classifyQuality, hbre, hr, h0]
            · simp [classifyQuality, hbre, hr, h0]
        | none => simp [classifyQuality, hbre, hr]
    | none =>
        cases hpre : f.presence_result with
        | some p => simp [classifyQuality, hbre, hpre]
        | none => simp [classifyQuality, hbre, hpre]
  refine ⟨?_, ?_, ?_, ?_, ?_⟩
  · intro br r hbre hr hpos
    have hr0 : r ≠ 0 := ne_of_gt hpos
    rw [hq, hb]
    simp [classifyQuality, hbre, hr, hr0]
  · intro br hbre hfalsy
    rw [hq, hb]
    cases hr : br.breathing_rate with
    | some r =>
        have h0 : r = 0 := by
          by_contra h0
          simp [rateTruthy, hr, h0] at hfalsy
        simp [classifyQuality, hbre, hr, h0]
    | none => simp [classifyQuality, hbre, hr]
  · intro hbre hpre
    cases hp : f.presence_result with
    | some p => rw [hq]; simp [classifyQuality, hbre, hp]
    | none => exact absurd hp hpre
  · intro hbre hpre
    rw [hq]
    simp [classifyQuality, hbre, hpre]
  · intro hflag
    rw [hb]
    rw [hq] at hflag
    cases hbre : f.breathing_result with
    | some br =>
        cases hr : br.breathing_rate with
        | some r =>
            by_cases h0 : r = 0
            · simp [classifyQuality, hbre, hr, h0] at hflag
            · simp [classifyQuality, hbre, hr, h0]
        | none => simp [classifyQuality, hbre, hr] at hflag
    | none =>
        cases hpre : f.presence_result with
        | some p => simp [classifyQuality, hbre, hpre] at hflag
        | none => simp [classifyQuality, hbre, hpre] at hflag

/-- Witness for C1 at a concrete frame with a positive rate. -/
theorem radar_quality_flag_precedence_witness :
    (RadarRow.mk 1 "breathing" (some 15) none).quality_flag = "breathing" ∧
      (RadarRow.mk 1 "breathing" (some 15) none).breath_rate_bpm = some (15 * bpmScale) :=
  (radar_quality_flag_precedence
      [Frame.mk (some (BreathingResult.mk (some 15))) none 1] 0
      (RadarRow.mk 1 "breathing" (some 15) none)
      (Frame.mk (some (BreathingResult.mk (some 15))) none 1)
      (by simp [radarRows, radarLoop, stepEnter, enterCond, classifyQuality, bpmScale])
      (by simp)).2.1
    (BreathingResult.mk (some 15)) 15 rfl rfl (by norm_num)

/-- C2: the radar enter time written with row `i` is the `current_time` of the
first frame among frames `0..i` satisfying the enter guard (blank when no such
frame exists yet); consequently it is set at most once — once some row carries
`some t`, every later row carries the same `some t` — and rows before the event
carry a blank. -/
theorem radar_enter_time_latch (frames : List Frame) (i : ℕ)
    (row : RadarRow) (hrow : (radarRows frames)[i]? = some row) :
    row.radar_enter_time =
      (List.find? enterCond (frames.take (i + 1))).map Frame.current_time ∧
    (∀ j rowj t, j ≤ i → (radarRows frames)[j]? = some rowj →
      rowj.radar_enter_time = some t → row.radar_enter_time = some t) ∧
    ((∀ f ∈ frames.take (i + 1), enterCond f = false) →
      row.radar_enter_time = none) := by
  have heq := radarLoop_enter frames none i row hrow
  simp [Option.or] at heq
  refine ⟨heq, ?_, ?_⟩
  · intro j rowj t hji hrowj ht
    have heqj := radarLoop_enter frames none j rowj hrowj
    simp [Option.or] at heqj
    rw [heqj] at ht
    obtain ⟨fr, hfr, hfrt⟩ := Option.map_eq_some'.mp ht
    have hsplit : frames.take (i + 1) =
        frames.take (j + 1) ++ (frames.take (i + 1)).drop (j + 1) := by
      conv_lhs => rw [← List.take_append_drop (j + 1) (frames.take (i + 1))]
      rw [List.take_take, Nat.min_eq_left (by omega)]
    rw [heq, hsplit, List.find?_append, hfr]
    simp [hfrt]
  · intro hnone
    rw [heq, List.find?_eq_none.mpr (by intro x hx; simp [hnone x hx])]
    rfl

/-- Witness for C2: a session whose second frame triggers the enter guard. -/
theorem radar_enter_time_latch_witness :
    (RadarRow.mk 2 "presence_only" none (some 2)).radar_enter_time =
      (List.find? enterCond
        ((
          [Frame.mk none none 1,
           Frame.mk none (some (PresenceResult.mk true (some (1/2)) 3 4)) 2]).take 2)).map
        Frame.current_time :=
  (radar_enter_time_latch
      [Frame.mk none none 1,
       Frame.mk none (some (PresenceResult.mk true (some (1/2)) 3 4)) 2] 1
      (RadarRow.mk 2 "presence_only" none (some 2))
      (by simp [radarRows, radarLoop, stepEnter, enterCond, classifyQuality,
        ENTER_DISTANCE_MIN, ENTER_DISTANCE_MAX]; norm_num)).1

/-! ### Offline merge (`analyze_session.py`, `merge_radar_belt`)

`merge_radar_belt` adds `belt_shift_s` to the belt timestamps
(`Timestamp_shifted = Timestamp + belt_shift_s`), sorts both frames, and runs
`pd.merge_asof(..., direction="nearest", tolerance=tolerance_s)`: each radar row
is paired with the belt row whose shifted timestamp is nearest (forward or
backward), provided the absolute difference is at most the tolerance; otherwise
the belt side is missing.  On a tie in distance pandas keeps the backward
(earlier) candidate, which for sorted keys is the earlier list element. -/

/-- A radar CSV row as `analyze_session.py` sees it after `pd.to_numeric`
coercion: non-numeric rate/distance cells become missing. -/
structure ARow where
  timestamp : ℚ
  quality_flag : String
  breath_rate : Option ℚ
  presence_detected : Bool
  presence_distance : Option ℚ
  deriving DecidableEq, Repr

/-- A belt CSV row as the analysis sees it. -/
structure BeltCsvRow where
  timestamp : ℚ
  belt_rate : Option ℚ
  deriving DecidableEq, Repr

/-- Stable insertion of `x` into `l` by ascending `key` (models `sort_values`;
the claims do not depend on the tie order among equal keys). -/
def insortBy (key : α → ℚ) (x : α) : List α → List α
  | [] => [x]
  | y :: ys => if key x < key y then x :: y :: ys else y :: insortBy key x ys

/-- Insertion sort by `key`. -/
def sortBy (key : α → ℚ) : List α → List α
  | [] => []
  | x :: xs => insortBy key x (sortBy key xs)

/-- Scan for the element whose `key` is nearest to `t` among those with
`|t - key| ≤ tol`, keeping the earlier element on ties (strict improvement
required), starting from candidate `best`. -/
def nearestAux (t tol : ℚ) (key : α → ℚ) : Option α → List α → Option α
  | best, [] => best
  | best, b :: rest =>
      nearestAux t tol key
        (if |t - key b| ≤ tol then
          match best with
          | none => some b
          | some c => if |t - key b| < |t - key c| then some b else some c
        else best) rest

/-- The nearest-within-tolerance match for `t` in `l`. -/
def nearestWithin (t tol : ℚ) (key : α → ℚ) (l : List α) : Option α :=
  nearestAux t tol key none l

/-- `merge_radar_belt`: shift the belt timestamps, sort both sides, and pair
each radar row with its nearest belt row within tolerance (or nothing). -/
def mergeRadarBelt (radar : List ARow) (belt : List BeltCsvRow) (shift tol : ℚ) :
    List (ARow × Option BeltCsvRow) :=
  let beltShifted := belt.map fun b => (b.timestamp + shift, b)
  let beltSorted := sortBy Prod.fst beltShifted
  let radarSorted := sortBy ARow.timestamp radar
  radarSorted.map fun r =>
    (r, (nearestWithin r.timestamp tol Prod.fst beltSorted).map Prod.snd)

theorem mem_insortBy (key : α → ℚ) (x a : α) (l : List α) :
    a ∈ insortBy key x l ↔ a = x ∨ a ∈ l := by
  induction l with
  | nil => simp [insortBy]
  | cons y ys ih =>
      by_cases h : key x < key y
      · simp [insortBy, h]
      · simp [insortBy, h, ih]
        tauto

theorem mem_sortBy (key : α → ℚ) (a : α) (l : List α) :
    a ∈ sortBy key l ↔ a ∈ l := by
  induction l with
  | nil => simp [sortBy]
  | cons x xs ih => simp [sortBy, mem_insortBy, ih]

theorem nearestAux_mem (t tol : ℚ) (key : α → ℚ) (l : List α) :
    ∀ best b, nearestAux t tol key best l = some b → b ∈ l ∨ best = some b := by
  induction l with
  | nil => intro best b h; right; exact h
  | cons y ys ih =>
      intro best b h
      rcases ih _ b h with hmem | hbest
      · left; exact List.mem_cons_of_mem _ hmem
      · by_cases hy : |t - key y| ≤ tol
        · cases best with
          | none =>
              simp [hy] at hbest
              left; exact hbest ▸ List.mem_cons_self _ _
          | some c =>
              by_cases hlt : |t - key y| < |t - key c|
              · simp [hy, hlt] at hbest
                left; exact hbest ▸ List.mem_cons_self _ _
              · simp [hy, hlt] at hbest
                right; rw [hbest]
        · simp [hy] at hbest
          right; exact hbest

theorem nearestAux_tol (t tol : ℚ) (key : α → ℚ) (l : List α) :
    ∀ best b, (∀ c, best = some c → |t - key c| ≤ tol) →
      nearestAux t tol key best l = some b → |t - key b| ≤ tol := by
  induction l with
  | nil =>
      intro best b hinv h
      exact hinv b h
  | cons y ys ih =>
      intro best b hinv h
      refine ih _ b ?_ h
      intro c hc
      by_cases hy : |t - key y| ≤ tol
      · cases best with
        | none =>
            simp [hy] at hc
            rw [← hc]; exact hy
        | some c0 =>
            by_cases hlt : |t - key y| < |t - key c0|
            · simp [hy, hlt] at hc
              rw [← hc]; exact hy
            · simp [hy, hlt] at hc
              rw [← hc]; exact hinv c0 rfl
      · simp [hy] at hc
        exact hinv c hc

theorem nearestAux_min (t tol : ℚ) (key : α → ℚ) (l : List α) :
    ∀ best b, nearestAux t tol key best l = some b →
      (∀ x ∈ l, |t - key x| ≤ tol → |t - key b| ≤ |t - key x|) ∧
      (∀ c, best = some c → |t - key b| ≤ |t - key c|) := by
  induction l with
  | nil =>
      intro best b h
      refine ⟨by simp, ?_⟩
      intro c hc
      have hb : best = some b := h
      rw [hb] at hc
      obtain rfl := Option.some.inj hc
      exact le_refl _
  | cons y ys ih =>
      intro best b h
      obtain ⟨ihl, ihbest⟩ := ih _ b h
      have hbestle : ∀ c, best = some c → |t - key b| ≤ |t - key c| := by
        intro c hc
        subst hc
        by_cases hy : |t - key y| ≤ tol
        · by_cases hlt : |t - key y| < |t - key c|
          · have := ihbest y (by simp [hy, hlt])
            exact le_trans this (le_of_lt hlt)
          · exact ihbest c (by simp [hy, hlt])
        · exact ihbest c (by simp [hy])
      refine ⟨?_, hbestle⟩
      intro x hx hxtol
      rcases List.mem_cons.mp hx with hxy | hxys
      · subst hxy
        cases best with
        | none => exact ihbest x (by simp [hxtol])
        | some c =>
            by_cases hlt : |t - key x| < |t - key c|
            · exact ihbest x (by simp [hxtol, hlt])
            · have h1 := ihbest c (by simp [hxtol, hlt])
              exact le_trans h1 (le_of_not_lt hlt)
      · exact ihl x hxys hxtol

/-- C3: every merged row either has a missing belt side, or is paired with a
belt row from the input whose shifted timestamp is within the tolerance of the
radar timestamp and is nearest among all belt rows (forward or backward);
together with the spec's concrete scenario: radar `[1, 2, 3]`, belt
`[1.05, 2.9]`, tolerance `0.5` pairs row 1 with 1.05, leaves row 2 unmatched,
and pairs row 3 with 2.9. -/
theorem merge_nearest_within_tolerance :
    (∀ (radar : List ARow) (belt : List BeltCsvRow) (shift tol : ℚ)
      (p : ARow × Option BeltCsvRow), p ∈ mergeRadarBelt radar belt shift tol →
      p.2 = none ∨ ∃ b, b ∈ belt ∧ p.2 = some b ∧
        |p.1.timestamp - (b.timestamp + shift)| ≤ tol ∧
        ∀ b2 ∈ belt, |p.1.timestamp - (b.timestamp + shift)| ≤
          |p.1.timestamp - (b2.timestamp + shift)|) ∧
    mergeRadarBelt
        [ARow.mk 1 "breathing" (some 12) true (some (1/2)),
         ARow.mk 2 "breathing" (some 13) true (some (1/2)),
         ARow.mk 3 "breathing" (some 14) true (some (1/2))]
        [BeltCsvRow.mk (21/20) (some 12), BeltCsvRow.mk (29/10) (some 14)] 0 (1/2)
      = [(ARow.mk 1 "breathing" (some 12) true (some (1/2)),
            some (BeltCsvRow.mk (21/20) (some 12))),
         (ARow.mk 2 "breathing" (some 13) true (some (1/2)), none),
         (ARow.mk 3 "breathing" (some 14) true (some (1/2)),
            some (BeltCsvRow.mk (29/10) (some 14)))] := by
  constructor
  · intro radar belt shift tol p hp
    simp only [mergeRadarBelt, List.mem_map] at hp
    obtain ⟨r, hr, hpr⟩ := hp
    cases hnear : nearestWithin r.timestamp tol Prod.fst
        (sortBy Prod.fst (belt.map fun b => (b.timestamp + shift, b))) with
    | none =>
        left
        rw [← hpr, hnear]
        rfl
    | some pr =>
        right
        have hmem : pr ∈ sortBy Prod.fst (belt.map fun b => (b.timestamp + shift, b)) := by
          rcases nearestAux_mem _ _ _ _ _ _ hnear with h | h
          · exact h
          · cases h
        rw [mem_sortBy, List.mem_map] at hmem
        obtain ⟨b, hb, hbpr⟩ := hmem
        refine ⟨b, hb, ?_, ?_, ?_⟩
        · rw [← hpr, hnear]
          simp [← hbpr]
        · have := nearestAux_tol _ _ _ _ _ _ (by intro c hc; cases hc) hnear
          rw [← hpr]
          simpa [← hbpr] using this
        · intro b2 hb2
          have hmin := (nearestAux_min _ _ _ _ _ _ hnear).1
          rw [← hpr]
          by_cases h2 : |r.timestamp - (b2.timestamp + shift)| ≤ tol
          · have hb2mem : ((b2.timestamp + shift, b2) : ℚ × BeltCsvRow) ∈
                sortBy Prod.fst (belt.map fun b => (b.timestamp + shift, b)) := by
              rw [mem_sortBy, List.mem_map]
              exact ⟨b2, hb2, rfl⟩
            have := hmin _ hb2mem (by simpa using h2)
            simpa [← hbpr] using this
          · have htol := nearestAux_tol _ _ _ _ _ _ (by intro c hc; cases hc) hnear
            have : |r.timestamp - (b.timestamp + shift)| ≤ tol := by
              simpa [← hbpr] using htol
            simp only [Prod.fst]
            exact le_trans this (le_of_not_le h2)
  · norm_num [mergeRadarBelt, sortBy, insortBy, nearestWithin, nearestAux,
      abs_of_nonpos, abs_of_nonneg]

/-- Witness for C3, instantiating the universal part on the scenario's first
merged row: the paired belt row 1.05 is within tolerance of radar row 1 and is
the nearer of the two belt rows. -/
theorem merge_nearest_within_tolerance_witness :
    |(1 : ℚ) - ((21/20 : ℚ) + 0)| ≤ 1/2 ∧
      |(1 : ℚ) - ((21/20 : ℚ) + 0)| ≤ |(1 : ℚ) - ((29/10 : ℚ) + 0)| := by
  have h := merge_nearest_within_tolerance.1
      [ARow.mk 1 "breathing" (some 12) true (some (1/2)),
       ARow.mk 2 "breathing" (some 13) true (some (1/2)),
       ARow.mk 3 "breathing" (some 14) true (some (1/2))]
      [BeltCsvRow.mk (21/20) (some 12), BeltCsvRow.mk (29/10) (some 14)] 0 (1/2)
      (ARow.mk 1 "breathing" (some 12) true (some (1/2)),
        some (BeltCsvRow.mk (21/20) (some 12)))
      (by rw [merge_nearest_within_tolerance.2]; exact List.mem_cons_self _ _)
  rcases h with h | h
  · exact absurd h (by simp)
  · obtain ⟨b, hb, hsome, htol, hmin⟩ := h
    obtain rfl := (Option.some.inj hsome).symm
    exact ⟨htol, hmin (BeltCsvRow.mk (29/10) (some 14)) (by simp)⟩

theorem insortBy_map {α β : Type _} (keyA : α → ℚ) (keyB : β → ℚ) (g : α → β)
    (hk : ∀ a, keyB (g a) = keyA a) (x : α) (l : List α) :
    insortBy keyB (g x) (l.map g) = (insortBy keyA x l).map g := by
  induction l with
  | nil => rfl
  | cons y ys ih =>
      simp only [List.map, insortBy, hk]
      by_cases h : keyA x < keyA y
      · simp [h]
      · simp [h, ih]

theorem sortBy_map {α β : Type _} (keyA : α → ℚ) (keyB : β → ℚ) (g : α → β)
    (hk : ∀ a, keyB (g a) = keyA a) (l : List α) :
    sortBy keyB (l.map g) = (sortBy keyA l).map g := by
  induction l with
  | nil => rfl
  | cons x xs ih => simp only [List.map, sortBy, ih, insortBy_map keyA keyB g hk]

theorem nearestAux_map {α β : Type _} (t tol : ℚ) (keyA : α → ℚ) (keyB : β → ℚ)
    (g : α → β) (hk : ∀ a, keyB (g a) = keyA a) (l : List α) :
    ∀ best : Option α,
      nearestAux t tol keyB (best.map g) (l.map g) =
        (nearestAux t tol keyA best l).map g := by
  induction l with
  | nil => intro best; rfl
  | cons y ys ih =>
      intro best
      simp only [List.map, nearestAux, hk]
      cases best with
      | none =>
          by_cases h : |t - keyA y| ≤ tol
          · simpa [h] using ih (some y)
          · simpa [h] using ih none
      | some c =>
          by_cases h : |t - keyA y| ≤ tol
          · by_cases h2 : |t - keyA y| < |t - keyA c|
            · simpa [h, h2, hk] using ih (some y)
            · simpa [h, h2, hk] using ih (some c)
          · simpa [h] using ih (some c)

/-- C4 counterexample: `belt_shift_s = +X` *adds* `X` to the belt timestamps
(`Timestamp_shifted = Timestamp + belt_shift_s`), so it is not equivalent to
subtracting `X` first and merging with shift `0`: with radar `[1]`, belt `[0]`,
`X = 1`, tolerance `0.5`, the shifted merge pairs the rows (difference `0`)
while the pre-subtracted merge leaves the radar row unmatched (difference `2`). -/
theorem merge_shift_subtract_counterexample :
    ¬ (mergeRadarBelt [ARow.mk 1 "none" none false none]
          [BeltCsvRow.mk 0 (some 17)] 1 (1/2)
        = mergeRadarBelt [ARow.mk 1 "none" none false none]
            ([BeltCsvRow.mk 0 (some 17)].map fun b =>
              BeltCsvRow.mk (b.timestamp - 1) b.belt_rate)
            0 (1/2)) := by
  norm_num [mergeRadarBelt, sortBy, insortBy, nearestWithin, nearestAux,
    abs_of_nonpos, abs_of_nonneg]
  simp

/-- C4 amended: merging with `belt_shift_s = +X` is equivalent to first *adding*
`X` to every belt `Timestamp` and merging with shift `0`; the merged rows agree
up to the belt rows carrying the shifted timestamp. -/
theorem merge_shift_equiv_add (radar : List ARow) (belt : List BeltCsvRow)
    (X tol : ℚ) :
    mergeRadarBelt radar
        (belt.map fun b => BeltCsvRow.mk (b.timestamp + X) b.belt_rate) 0 tol
      = (mergeRadarBelt radar belt X tol).map
          fun p => (p.1, p.2.map fun b => BeltCsvRow.mk (b.timestamp + X) b.belt_rate) := by
  simp only [mergeRadarBelt]
  have h1 : ((belt.map fun b => BeltCsvRow.mk (b.timestamp + X) b.belt_rate).map
        fun b => (b.timestamp + 0, b))
      = (belt.map fun b => (b.timestamp + X, b)).map
          (Prod.map id fun b => BeltCsvRow.mk (b.timestamp + X) b.belt_rate) := by
    simp [List.map_map, Function.comp, Prod.map]
  rw [h1]
  have h3 := sortBy_map (α := ℚ × BeltCsvRow) (β := ℚ × BeltCsvRow) Prod.fst Prod.fst
      (Prod.map id fun b => BeltCsvRow.mk (b.timestamp + X) b.belt_rate)
      (fun a => by cases a; rfl)
      (belt.map fun b => (b.timestamp + X, b))
  rw [h3, List.map_map]
  congr 1
  funext r
  have h2 := nearestAux_map r.timestamp tol Prod.fst Prod.fst
      (Prod.map (@id ℚ) fun b => BeltCsvRow.mk (b.timestamp + X) b.belt_rate)
      (fun a => by cases a; rfl)
      (sortBy Prod.fst (belt.map fun b => (b.timestamp + X, b))) none
  simp only [Option.map_none'] at h2
  simp only [Function.comp, nearestWithin, h2, Option.map_map]
  congr 2

/-! ### Feasibility metrics (`analyze_session.py`, `load_radar` and
`compute_feasibility_metrics`)

`load_radar` extracts `t_presence` as the minimum `Timestamp` over rows with
`Presence_Detected == True` and an in-range numeric `Presence_Distance_m`, and
`t_first_breath` as the minimum `Timestamp` over rows with
`Quality_Flag == "breathing"` and a numeric `Breath_Rate_BPM` (both `None` when
no row matches).  `compute_feasibility_metrics` derives the cold-start latency
and the four overlap metrics, all of which are `None` (and the count `0`) when
no merged row has both rates. -/

/-- Minimum of a list of rationals (`Series.min` over non-missing values);
`none` on the empty list. -/
def minQ? : List ℚ → Option ℚ
  | [] => none
  | x :: xs =>
      some (match minQ? xs with
        | none => x
        | some m => min x m)

/-- `mask_pres` of `load_radar`: detected, numeric distance, inside the
inclusive range; a missing distance compares false. -/
def maskPresence (lo hi : ℚ) (r : ARow) : Bool :=
  r.presence_detected &&
    match r.presence_distance with
    | none => false
    | some d => decide (lo ≤ d) && decide (d ≤ hi)

/-- `mask_breath` of `load_radar`: flag `breathing` and a numeric rate. -/
def maskBreathing (r : ARow) : Bool :=
  (r.quality_flag == "breathing") && r.breath_rate.isSome

/-- `t_presence` of `load_radar`. -/
def tPresence (lo hi : ℚ) (rows : List ARow) : Option ℚ :=
  minQ? (rows.filterMap fun r => if maskPresence lo hi r then some r.timestamp else none)

/-- `t_first_breath` of `load_radar`. -/
def tFirstRadarBreath (rows : List ARow) : Option ℚ :=
  minQ? (rows.filterMap fun r => if maskBreathing r then some r.timestamp else none)

/-- The metrics dictionary.  Pearson correlation is irrational in general
(`r = Sxy / sqrt(Sxx * Syy)`), so the model records the three defining centered
sums `(Sxy, Sxx, Syy)`; the claims only inspect availability (`some`/`none`). -/
structure Metrics where
  t_presence : Option ℚ
  t_first_radar_breath : Option ℚ
  t_first_belt_breath : Option ℚ
  radar_cold_start_from_presence : Option ℚ
  mean_abs_error_bpm : Option ℚ
  mean_signed_error_bpm : Option ℚ
  corr_radar_belt : Option (ℚ × ℚ × ℚ)
  n_overlap_samples : ℕ
  deriving DecidableEq, Repr

/-- The centered sums determining the Pearson correlation of the two series. -/
def corrSums (xs ys : List ℚ) : ℚ × ℚ × ℚ :=
  let n : ℚ := xs.length
  let mx := xs.sum / n
  let my := ys.sum / n
  (((xs.zip ys).map fun p => (p.1 - mx) * (p.2 - my)).sum,
   (xs.map fun x => (x - mx) ^ 2).sum,
   (ys.map fun y => (y - my) ^ 2).sum)

/-- `valid`: the merged rows where both `Breath_Rate_BPM` and
`Belt_Breath_Rate_BPM` are numeric, projected to the two rates. -/
def validPairs (merged : List (ARow × Option BeltCsvRow)) : List (ℚ × ℚ) :=
  merged.filterMap fun p =>
    match p.1.breath_rate, p.2.bind BeltCsvRow.belt_rate with
    | some r, some b => some (r, b)
    | _, _ => none

/-- `compute_feasibility_metrics`. -/
def compute_feasibility_metrics (tp tb tbelt : Option ℚ)
    (merged : List (ARow × Option BeltCsvRow)) : Metrics :=
  let cold : Option ℚ :=
    match tp, tb with
    | some p, some b => some (b - p)
    | _, _ => none
  let valid := validPairs merged
  if valid = [] then
    { t_presence := tp, t_first_radar_breath := tb, t_first_belt_breath := tbelt
      radar_cold_start_from_presence := cold
      mean_abs_error_bpm := none, mean_signed_error_bpm := none
      corr_radar_belt := none, n_overlap_samples := 0 }
  else
    { t_presence := tp, t_first_radar_breath := tb, t_first_belt_breath := tbelt
      radar_cold_start_from_presence := cold
      mean_abs_error_bpm := some (((valid.map fun p => |p.1 - p.2|).sum) / valid.length)
      mean_signed_error_bpm := some (((valid.map fun p => p.1 - p.2).sum) / valid.length)
      corr_radar_belt := some (corrSums (valid.map Prod.fst) (valid.map Prod.snd))
      n_overlap_samples := valid.length }

/-- C5 counterexample: the overlap count is *not* reported as unavailable when
there are zero overlapping pairs — `compute_feasibility_metrics` sets
`metrics["n_overlap_samples"] = 0`, the plain integer zero, in the empty
branch.  Concretely, on a merged dataset with rows but no row having both
rates, the reported count is the value `0`. -/
theorem zero_overlap_count_counterexample :
    (compute_feasibility_metrics none none none
        [(ARow.mk 1 "presence_only" none true (some (1/2)), none),
         (ARow.mk 2 "breathing_no_rate" none true (some (1/2)),
            some (BeltCsvRow.mk 2 (some 14)))]).n_overlap_samples = 0 := by
  simp [compute_feasibility_metrics, validPairs]

/-- C5 amended: when no merged row has both a numeric radar rate and a numeric
belt rate, the three overlap-derived statistics (mean absolute error, mean
signed error, correlation) are reported as unavailable (`none`), distinguishable
from the value `0.0` (`none ≠ some 0`), while the overlap count is reported as
the plain integer `0`. -/
theorem zero_overlap_metrics_unavailable (tp tb tbelt : Option ℚ)
    (merged : List (ARow × Option BeltCsvRow))
    (h : ∀ p ∈ merged, p.1.breath_rate = none ∨ p.2.bind BeltCsvRow.belt_rate = none) :
    (compute_feasibility_metrics tp tb tbelt merged).mean_abs_error_bpm = none ∧
    (compute_feasibility_metrics tp tb tbelt merged).mean_signed_error_bpm = none ∧
    (compute_feasibility_metrics tp tb tbelt merged).corr_radar_belt = none ∧
    (compute_feasibility_metrics tp tb tbelt merged).n_overlap_samples = 0 ∧
    (compute_feasibility_metrics tp tb tbelt merged).mean_abs_error_bpm ≠ some 0 := by
  have hvalid : validPairs merged = [] := by
    rw [validPairs, List.filterMap_eq_nil_iff]
    intro p hp
    rcases h p hp with h1 | h1 <;> simp [h1]
  simp [compute_feasibility_metrics, hvalid]

/-- Witness for C5: a merged dataset with rows but no overlapping rates. -/
theorem zero_overlap_metrics_unavailable_witness :
    (compute_feasibility_metrics none none none
        [(ARow.mk 1 "presence_only" none true (some (1/2)), none),
         (ARow.mk 2 "breathing_no_rate" none true (some (1/2)),
            some (BeltCsvRow.mk 2 (some 14)))]).mean_abs_error_bpm = none ∧
    (compute_feasibility_metrics none none none
        [(ARow.mk 1 "presence_only" none true (some (1/2)), none),
         (ARow.mk 2 "breathing_no_rate" none true (some (1/2)),
            some (BeltCsvRow.mk 2 (some 14)))]).mean_signed_error_bpm = none ∧
    (compute_feasibility_metrics none none none
        [(ARow.mk 1 "presence_only" none true (some (1/2)), none),
         (ARow.mk 2 "breathing_no_rate" none true (some (1/2)),
            some (BeltCsvRow.mk 2 (some 14)))]).corr_radar_belt = none ∧
    (compute_feasibility_metrics none none none
        [(ARow.mk 1 "presence_only" none true (some (1/2)), none),
         (ARow.mk 2 "breathing_no_rate" none true (some (1/2)),
            some (BeltCsvRow.mk 2 (some 14)))]).n_overlap_samples = 0 ∧
    (compute_feasibility_metrics none none none
        [(ARow.mk 1 "presence_only" none true (some (1/2)), none),
         (ARow.mk 2 "breathing_no_rate" none true (some (1/2)),
            some (BeltCsvRow.mk 2 (some 14)))]).mean_abs_error_bpm ≠ some 0 :=
  zero_overlap_metrics_unavailable none none none _ (by intro p hp; simp at hp; rcases hp with h | h <;> simp [h])

theorem minQ?_mem : ∀ (l : List ℚ) (m : ℚ), minQ? l = some m → m ∈ l := by
  intro l
  induction l with
  | nil => intro m h; cases h
  | cons x xs ih =>
      intro m h
      cases hxs : minQ? xs with
      | none =>
          simp [minQ?, hxs] at h
          simp [← h]
      | some m' =>
          simp [minQ?, hxs] at h
          rcases min_choice x m' with hmin | hmin <;> rw [hmin] at h
          · simp [← h]
          · simp [← h, ih m' hxs]

/-- On a list sorted by `f`, the minimum of the `f`-values of the rows matched
by `p` is the `f`-value of the first matching row. -/
theorem minQ?_filterMap_sorted {α : Type _} (p : α → Bool) (f : α → ℚ) :
    ∀ l : List α, List.Pairwise (fun a b => f a ≤ f b) l →
      minQ? (l.filterMap fun r => if p r then some (f r) else none) =
        (l.find? p).map f := by
  intro l
  induction l with
  | nil => intro _; rfl
  | cons x xs ih =>
      intro hmono
      obtain ⟨hx, hxs⟩ := List.pairwise_cons.mp hmono
      by_cases hp : p x
      · rw [List.find?_cons_of_pos _ hp]
        have hfm : (List.filterMap (fun r => if p r then some (f r) else none) (x :: xs))
            = f x :: xs.filterMap fun r => if p r then some (f r) else none := by
          simp [List.filterMap_cons, hp]
        rw [hfm]
        cases hrest : minQ? (xs.filterMap fun r => if p r then some (f r) else none) with
        | none => simp [minQ?, hrest]
        | some m =>
            have hmem := minQ?_mem _ _ hrest
            rw [List.mem_filterMap] at hmem
            obtain ⟨y, hy, hyp⟩ := hmem
            have hfy : f y = m := by
              by_cases hpy : p y
              · simpa [hpy] using hyp
              · simp [hpy] at hyp
            have : f x ≤ m := hfy ▸ hx y hy
            simp [minQ?, hrest, min_eq_left this]
      · rw [List.find?_cons_of_neg _ hp]
        have hfm : (List.filterMap (fun r => if p r then some (f r) else none) (x :: xs))
            = xs.filterMap fun r => if p r then some (f r) else none := by
          simp [List.filterMap_cons, hp]
        rw [hfm, ih hxs]

/-- C6: on a chronologically ordered radar CSV, the reported cold-start latency
is the timestamp of the first row flagged `breathing` with a numeric rate minus
the timestamp of the first in-range presence detection, and it is absent when
either event never occurs; on the spec's scenario (first in-range presence at
`t = 2`, first valid breathing rate at `t = 10`) it is `8` seconds. -/
theorem cold_start_latency (rows : List ARow) (lo hi : ℚ) (tbelt : Option ℚ)
    (merged : List (ARow × Option BeltCsvRow))
    (hmono : List.Pairwise (fun a b => a.timestamp ≤ b.timestamp) rows) :
    ((compute_feasibility_metrics (tPresence lo hi rows) (tFirstRadarBreath rows)
        tbelt merged).radar_cold_start_from_presence =
      match rows.find? (maskPresence lo hi), rows.find? maskBreathing with
      | some rp, some rb => some (rb.timestamp - rp.timestamp)
      | _, _ => none) ∧
    (compute_feasibility_metrics
        (tPresence (2/5) (7/10)
          [ARow.mk 2 "presence_only" none true (some (1/2)),
           ARow.mk 10 "breathing" (some 12) true (some (1/2))])
        (tFirstRadarBreath
          [ARow.mk 2 "presence_only" none true (some (1/2)),
           ARow.mk 10 "breathing" (some 12) true (some (1/2))])
        none []).radar_cold_start_from_presence = some 8 := by
  constructor
  · have hp : tPresence lo hi rows = (rows.find? (maskPresence lo hi)).map ARow.timestamp :=
      minQ?_filterMap_sorted (maskPresence lo hi) ARow.timestamp rows hmono
    have hb : tFirstRadarBreath rows = (rows.find? maskBreathing).map ARow.timestamp :=
      minQ?_filterMap_sorted maskBreathing ARow.timestamp rows hmono
    rw [hp, hb]
    cases rows.find? (maskPresence lo hi) with
    | none =>
        cases rows.find? maskBreathing with
        | none => simp [compute_feasibility_metrics, apply_ite Metrics.radar_cold_start_from_presence]
        | some rb => simp [compute_feasibility_metrics, apply_ite Metrics.radar_cold_start_from_presence]
    | some rp =>
        cases rows.find? maskBreathing with
        | none => simp [compute_feasibility_metrics, apply_ite Metrics.radar_cold_start_from_presence]
        | some rb => simp [compute_feasibility_metrics, apply_ite Metrics.radar_cold_start_from_presence]
  · norm_num [compute_feasibility_metrics, tPresence, tFirstRadarBreath, minQ?,
      maskPresence, maskBreathing, validPairs, List.filterMap]

/-- Witness for C6 on the scenario session (presence at 2 s, breathing at 10 s,
latency 8 s), discharging the sortedness hypothesis. -/
theorem cold_start_latency_witness :
    (compute_feasibility_metrics
        (tPresence (2/5) (7/10)
          [ARow.mk 2 "presence_only" none true (some (1/2)),
           ARow.mk 10 "breathing" (some 12) true (some (1/2))])
        (tFirstRadarBreath
          [ARow.mk 2 "presence_only" none true (some (1/2)),
           ARow.mk 10 "breathing" (some 12) true (some (1/2))])
        none []).radar_cold_start_from_presence = some 8 :=
  (cold_start_latency
      [ARow.mk 2 "presence_only" none true (some (1/2)),
       ARow.mk 10 "breathing" (some 12) true (some (1/2))]
      (2/5) (7/10) none []
      (by norm_num [List.pairwise_cons])).2

/-! ### Belt acquisition loop (`belt_logger.py`)

`record_belt_breathing_rate` opens the device (returning `1` on failure before
any other side effect), then polls once per tick.  Ticks are scheduled at
`start_time + k * sample_interval_s`, so tick `k` of the loop body runs at
elapsed time `k * sample_interval_s` seconds (the model uses this idealised
time grid; reads are instantaneous).  A `KeyboardInterrupt` is modelled as
arriving at the top of a designated tick.  The function's return value is
passed unchanged to `sys.exit` by `__main__`. -/

/-- `NO_DATA_TIMEOUT = 8` seconds in the script. -/
def NO_DATA_TIMEOUT : ℕ := 8

/-- The environment a run of the belt loop interacts with. -/
structure BeltEnv where
  /-- whether `g.open(connection="usb")` succeeds -/
  openOk : Bool
  /-- the value `g.read()` yields at tick `k` (`none` = "No data returned") -/
  reads : ℕ → Option ℚ
  /-- `KeyboardInterrupt` delivered at the top of this tick, if any -/
  interruptAt : Option ℕ
  duration_s : ℕ
  sample_interval_s : ℕ
  /-- whether `g.stop()` raises (caught and logged by the script) -/
  stopRaises : Bool
  /-- whether `g.close()` raises (caught and logged by the script) -/
  closeRaises : Bool

/-- Observable outcome of a run: exit status, CSV rows written
(`(Belt_Breath_Rate_BPM, Is_New_Value)` per row), whether the CSV file was
created, whether the sensor was selected/started, and how many times a
stop-and-close release of the device was attempted. -/
structure BeltResult where
  exitCode : ℕ
  rows : List (ℚ × Bool)
  fileCreated : Bool
  sensorStarted : Bool
  releaseAttempts : ℕ
  deriving DecidableEq, Repr

/-- The polling loop.  `fuel` bounds the number of iterations (the caller
passes `duration_s + 1`, enough for any positive interval); `k` is the tick
index, `last` the previous written reading (`last_bpm`), `got` the
`got_any_data` flag, `acc` the rows written so far.  Returns
`(exit code, rows, release attempts)`.  The grace-period abort returns `2`
after an explicit stop-and-close, and the `finally` block then attempts
stop-and-close a second time (a `return` inside `try` still runs `finally`),
hence `2` release attempts on that path; all other exits release once in
`finally` and return `0`. -/
def beltLoopAux (env : BeltEnv) : ℕ → ℕ → Option ℚ → Bool → List (ℚ × Bool) →
    ℕ × List (ℚ × Bool) × ℕ
  | 0, _, _, _, acc => (0, acc, 1)
  | fuel + 1, k, last, got, acc =>
      if k * env.sample_interval_s < env.duration_s then
        if env.interruptAt = some k then (0, acc, 1)
        else
          match env.reads k with
          | some bpm =>
              beltLoopAux env fuel (k + 1) (some bpm) true
                (acc ++ [(bpm, decide (some bpm ≠ last))])
          | none =>
              if got = false ∧ NO_DATA_TIMEOUT < k * env.sample_interval_s then
                (2, acc, 2)
              else beltLoopAux env fuel (k + 1) last got acc
      else (0, acc, 1)

/-- `record_belt_breathing_rate`: on open failure return `1` before creating
the file, selecting/starting the sensor, or touching the device again;
otherwise run the loop (the file is created and the sensor started first). -/
def record_belt_breathing_rate (env : BeltEnv) : BeltResult :=
  if env.openOk then
    let r := beltLoopAux env (env.duration_s + 1) 0 none false []
    { exitCode := r.1, rows := r.2.1, fileCreated := true, sensorStarted := true
      releaseAttempts := r.2.2 }
  else
    { exitCode := 1, rows := [], fileCreated := false, sensorStarted := false
      releaseAttempts := 0 }

/-- `__main__` passes the loop's return value to `sys.exit` unchanged. -/
def beltMainExitCode (env : BeltEnv) : ℕ :=
  (record_belt_breathing_rate env).exitCode

/-- Every loop exit returns either `0` with one release attempt or `2` with
two release attempts. -/
theorem beltLoopAux_code (env : BeltEnv) : ∀ fuel k last got acc,
    ((beltLoopAux env fuel k last got acc).1 = 0 ∧
      (beltLoopAux env fuel k last got acc).2.2 = 1) ∨
    ((beltLoopAux env fuel k last got acc).1 = 2 ∧
      (beltLoopAux env fuel k last got acc).2.2 = 2) := by
  intro fuel
  induction fuel with
  | zero => intro k last got acc; left; exact ⟨rfl, rfl⟩
  | succ n ih =>
      intro k last got acc
      simp only [beltLoopAux]
      by_cases hc : k * env.sample_interval_s < env.duration_s
      · simp only [if_pos hc]
        by_cases hint : env.interruptAt = some k
        · simp [hint]
        · simp only [if_neg hint]
          cases hr : env.reads k with
          | some bpm => exact ih _ _ _ _
          | none =>
              by_cases habort : got = false ∧ NO_DATA_TIMEOUT < k * env.sample_interval_s
              · simp [habort]
              · simp only [if_neg habort]
                exact ih _ _ _ _
      · simp [hc]

/-- Once data has been obtained, the loop can only finish normally: exit code
`0`, one release attempt. -/
theorem beltLoopAux_got (env : BeltEnv) : ∀ fuel k last acc,
    (beltLoopAux env fuel k last true acc).1 = 0 ∧
      (beltLoopAux env fuel k last true acc).2.2 = 1 := by
  intro fuel
  induction fuel with
  | zero => intro k last acc; exact ⟨rfl, rfl⟩
  | succ n ih =>
      intro k last acc
      simp only [beltLoopAux]
      by_cases hc : k * env.sample_interval_s < env.duration_s
      · simp only [if_pos hc]
        by_cases hint : env.interruptAt = some k
        · simp [hint]
        · simp only [if_neg hint]
          cases hr : env.reads k with
          | some bpm => exact ih _ _ _
          | none => simp only [show ¬(true = false ∧
                NO_DATA_TIMEOUT < k * env.sample_interval_s) from by simp, if_neg,
                not_false_eq_true]
                    exact ih _ _ _
      · simp [hc]

/-- If the loop exits with code `2` it wrote no row beyond those already
accumulated. -/
theorem beltLoopAux_rows_code2 (env : BeltEnv) : ∀ fuel k last got acc,
    (beltLoopAux env fuel k last got acc).1 = 2 →
      (beltLoopAux env fuel k last got acc).2.1 = acc := by
  intro fuel
  induction fuel with
  | zero => intro k last got acc h; cases h
  | succ n ih =>
      intro k last got acc
      simp only [beltLoopAux]
      by_cases hc : k * env.sample_interval_s < env.duration_s
      · simp only [if_pos hc]
        by_cases hint : env.interruptAt = some k
        · simp [hint]
        · simp only [if_neg hint]
          cases hr : env.reads k with
          | some bpm =>
              intro h
              exact absurd h (by simp [(beltLoopAux_got env n _ _ _).1])
          | none =>
              by_cases habort : got = false ∧ NO_DATA_TIMEOUT < k * env.sample_interval_s
              · simp [habort]
              · simp only [if_neg habort]
                exact ih _ _ _ _
      · simp [hc]


/-- If the device never yields data and no interrupt arrives, the loop aborts
with code `2` (and two release attempts, no rows) as soon as it reaches a tick
past the grace period but before the duration elapses. -/
theorem beltLoopAux_noData (env : BeltEnv)
    (hreads : ∀ j, env.reads j = none) (hint : env.interruptAt = none) :
    ∀ fuel k last acc,
      env.duration_s ≤ k * env.sample_interval_s + fuel * env.sample_interval_s →
      (∃ j, k ≤ j ∧ NO_DATA_TIMEOUT < j * env.sample_interval_s ∧
        j * env.sample_interval_s < env.duration_s) →
      beltLoopAux env fuel k last false acc = (2, acc, 2) := by
  intro fuel
  induction fuel with
  | zero =>
      intro k last acc hfuel hex
      obtain ⟨j, hkj, h8, hdur⟩ := hex
      exfalso
      have h1 : k * env.sample_interval_s ≤ j * env.sample_interval_s :=
        mul_le_mul_right' hkj _
      have h2 : env.duration_s ≤ k * env.sample_interval_s := by simpa using hfuel
      exact absurd (lt_of_lt_of_le hdur (le_trans h2 h1)) (lt_irrefl _)
  | succ n ih =>
      intro k last acc hfuel hex
      obtain ⟨j, hkj, h8, hdur⟩ := hex
      have h1 : k * env.sample_interval_s ≤ j * env.sample_interval_s :=
        mul_le_mul_right' hkj _
      have hc : k * env.sample_interval_s < env.duration_s := lt_of_le_of_lt h1 hdur
      simp only [beltLoopAux, if_pos hc, hint, hreads k]
      by_cases h8k : NO_DATA_TIMEOUT < k * env.sample_interval_s
      · simp [h8k]
      · have hno : ¬ (True ∧ NO_DATA_TIMEOUT < k * env.sample_interval_s) := by simp [h8k]
        rw [if_neg hno]
        apply ih (k + 1) last acc
        · have heq : (k + 1) * env.sample_interval_s + n * env.sample_interval_s
              = k * env.sample_interval_s + (n + 1) * env.sample_interval_s := by ring
          rw [heq]
          exact hfuel
        · refine ⟨j, ?_, h8, hdur⟩
          by_contra hcon
          push_neg at hcon
          have hjk : j ≤ k := Nat.lt_succ_iff.mp hcon
          have : j * env.sample_interval_s ≤ k * env.sample_interval_s :=
            mul_le_mul_right' hjk _
          exact h8k (lt_of_lt_of_le h8 this)

/-- C7: the belt loop's exit status is always one of `0`, `1`, `2`; it is `1`
exactly when the device failed to open; it is `2` (with no rows written) when
the device opened but never produced a reading and a tick falls strictly after
the 8-second grace period and before the duration elapses; it is `0` on normal
completion (data from the first tick onwards, or an immediate user interrupt);
and `__main__` passes the status through to the process exit code unchanged. -/
theorem belt_exit_codes (env : BeltEnv) :
    ((record_belt_breathing_rate env).exitCode = 0 ∨
      (record_belt_breathing_rate env).exitCode = 1 ∨
      (record_belt_breathing_rate env).exitCode = 2) ∧
    ((record_belt_breathing_rate env).exitCode = 1 ↔ env.openOk = false) ∧
    (env.openOk = true → env.interruptAt = none → (∀ j, env.reads j = none) →
      1 ≤ env.sample_interval_s →
      (∃ j, NO_DATA_TIMEOUT < j * env.sample_interval_s ∧
        j * env.sample_interval_s < env.duration_s) →
      (record_belt_breathing_rate env).exitCode = 2 ∧
        (record_belt_breathing_rate env).rows = []) ∧
    (env.openOk = true → env.interruptAt = some 0 →
      (record_belt_breathing_rate env).exitCode = 0) ∧
    (env.openOk = true → env.interruptAt = none → env.reads 0 ≠ none →
      (record_belt_breathing_rate env).exitCode = 0) ∧
    (beltMainExitCode env = (record_belt_breathing_rate env).exitCode) := by
  refine ⟨?_, ?_, ?_, ?_, ?_, rfl⟩
  · cases hopen : env.openOk with
    | false => right; left; simp [record_belt_breathing_rate, hopen]
    | true =>
        simp only [record_belt_breathing_rate, hopen, if_true]
        rcases beltLoopAux_code env (env.duration_s + 1) 0 none false [] with ⟨h, _⟩ | ⟨h, _⟩
        · left; exact h
        · right; right; exact h
  · cases hopen : env.openOk with
    | false => simp [record_belt_breathing_rate, hopen]
    | true =>
        simp only [record_belt_breathing_rate, hopen, if_true]
        rcases beltLoopAux_code env (env.duration_s + 1) 0 none false [] with ⟨h, _⟩ | ⟨h, _⟩
        · simp [h]
        · simp [h]
  · intro hopen hint hreads hI hex
    obtain ⟨j, h8, hdur⟩ := hex
    have habort := beltLoopAux_noData env hreads hint (env.duration_s + 1) 0 none []
        (by
          have h1 : env.duration_s + 1 ≤ (env.duration_s + 1) * env.sample_interval_s := by
            calc env.duration_s + 1 = (env.duration_s + 1) * 1 := by ring
            _ ≤ (env.duration_s + 1) * env.sample_interval_s := mul_le_mul_left' hI _
          simp only [Nat.zero_mul, Nat.zero_add]
          exact le_trans (Nat.le_succ _) h1)
        ⟨j, Nat.zero_le _, h8, hdur⟩
    simp [record_belt_breathing_rate, hopen, habort]
  · intro hopen hint0
    simp only [record_belt_breathing_rate, hopen, if_true]
    by_cases hdur : 0 < env.duration_s
    · simp [beltLoopAux, Nat.zero_mul, hdur, hint0]
    · simp [beltLoopAux, Nat.zero_mul, hdur]
  · intro hopen hint hread0
    simp only [record_belt_breathing_rate, hopen, if_true]
    by_cases hdur : 0 < env.duration_s
    · cases hr : env.reads 0 with
      | none => exact absurd hr hread0
      | some bpm =>
          simp only [beltLoopAux, Nat.zero_mul, if_pos hdur, hint]
          rw [if_neg (by simp)]
          rw [hr]
          exact (beltLoopAux_got env env.duration_s 1 (some bpm) _).1
    · simp [beltLoopAux, Nat.zero_mul, hdur]

/-- Witness for C7 on a concrete dead device: open succeeds, every read is
empty, 1-second interval, 300-second duration; the loop exits with code 2 and
writes no rows (tick 9 is the first past the 8-second grace period). -/
theorem belt_exit_codes_witness :
    (record_belt_breathing_rate
        { openOk := true, reads := fun _ => none, interruptAt := none,
          duration_s := 300, sample_interval_s := 1,
          stopRaises := false, closeRaises := false }).exitCode = 2 ∧
    (record_belt_breathing_rate
        { openOk := true, reads := fun _ => none, interruptAt := none,
          duration_s := 300, sample_interval_s := 1,
          stopRaises := false, closeRaises := false }).rows = [] :=
  (belt_exit_codes
      { openOk := true, reads := fun _ => none, interruptAt := none,
        duration_s := 300, sample_interval_s := 1,
        stopRaises := false, closeRaises := false }).2.2.1
    rfl rfl (fun _ => rfl) (by norm_num)
    ⟨9, by norm_num [NO_DATA_TIMEOUT], by norm_num⟩

/-- Loop invariant for the `Is_New_Value` flag: if the accumulated rows start
with a `true` flag, adjacent rows are linked by "flag = (rate differs from the
previous row's rate)", and `last` is the rate of the last accumulated row
(`none` iff no row yet), then the final row list keeps the first two
properties. -/
theorem beltLoopAux_is_new (env : BeltEnv) : ∀ fuel k last got acc,
    ((acc = [] ∧ last = none) ∨ (∃ r, acc.getLast? = some r ∧ last = some r.1)) →
    (∀ r, acc.head? = some r → r.2 = true) →
    List.Chain' (fun a b => b.2 = decide (b.1 ≠ a.1)) acc →
    (∀ r, (beltLoopAux env fuel k last got acc).2.1.head? = some r → r.2 = true) ∧
      List.Chain' (fun a b => b.2 = decide (b.1 ≠ a.1))
        (beltLoopAux env fuel k last got acc).2.1 := by
  intro fuel
  induction fuel with
  | zero => intro k last got acc _ hhead hchain; exact ⟨hhead, hchain⟩
  | succ n ih =>
      intro k last got acc hinv hhead hchain
      simp only [beltLoopAux]
      by_cases hc : k * env.sample_interval_s < env.duration_s
      · simp only [if_pos hc]
        by_cases hint : env.interruptAt = some k
        · simp only [if_pos hint]
          exact ⟨hhead, hchain⟩
        · simp only [if_neg hint]
          cases hr : env.reads k with
          | some bpm =>
              apply ih
              · right
                refine ⟨(bpm, decide (some bpm ≠ last)), ?_, rfl⟩
                simp
              · intro r hrhead
                cases hacc : acc with
                | nil =>
                    subst hacc
                    simp at hrhead
                    rcases hinv with ⟨_, hlast⟩ | ⟨r0, hr0, _⟩
                    · subst hlast
                      rw [← hrhead]
                      simp
                    · simp at hr0
                | cons a as =>
                    subst hacc
                    simp at hrhead
                    exact hhead r (by simp [hrhead])
              · rw [List.chain'_append]
                refine ⟨hchain, List.chain'_singleton _, ?_⟩
                intro x hx y hy
                simp at hy
                rcases hinv with ⟨hacc, _⟩ | ⟨r0, hr0, hlast⟩
                · subst hacc; simp at hx
                · rw [hr0] at hx
                  simp at hx
                  subst hx
                  subst hy
                  subst hlast
                  simp
          | none =>
              by_cases habort : got = false ∧ NO_DATA_TIMEOUT < k * env.sample_interval_s
              · simp only [if_pos habort]
                exact ⟨hhead, hchain⟩
              · simp only [if_neg habort]
                exact ih _ _ _ _ hinv hhead hchain
      · simp only [if_neg hc]
        exact ⟨hhead, hchain⟩

/-- C8: in the rows written by the belt loop, `Is_New_Value` is `true` on the
first row (the initial `last_bpm` is `None`, and any reading differs from
`None`), and on every later row it is `true` exactly when the reading differs
from the immediately preceding written row's reading. -/
theorem belt_is_new_value (env : BeltEnv) :
    (∀ r, (record_belt_breathing_rate env).rows.head? = some r → r.2 = true) ∧
      List.Chain' (fun a b => b.2 = decide (b.1 ≠ a.1))
        (record_belt_breathing_rate env).rows := by
  cases hopen : env.openOk with
  | false =>
      constructor
      · intro r hr
        simp [record_belt_breathing_rate, hopen] at hr
      · simp [record_belt_breathing_rate, hopen]
  | true =>
      simp only [record_belt_breathing_rate, hopen, if_true]
      exact beltLoopAux_is_new env (env.duration_s + 1) 0 none false []
        (Or.inl ⟨rfl, rfl⟩) (by intro r hr; simp at hr) List.chain'_nil

/-- Witness for C8: a device returning 15 bpm on both ticks of a 2-second run;
the first row is flagged new, and the flags are exactly `[true, false]`. -/
theorem belt_is_new_value_witness :
    (record_belt_breathing_rate
        { openOk := true, reads := fun _ => some 15, interruptAt := none,
          duration_s := 2, sample_interval_s := 1,
          stopRaises := false, closeRaises := false }).rows.head?
      = some ((15 : ℚ), true) ∧ ((15 : ℚ), true).2 = true := by
  have hhead : (record_belt_breathing_rate
      { openOk := true, reads := fun _ => some 15, interruptAt := none,
        duration_s := 2, sample_interval_s := 1,
        stopRaises := false, closeRaises := false }).rows.head?
      = some ((15 : ℚ), true) := by
    simp [record_belt_breathing_rate, beltLoopAux, NO_DATA_TIMEOUT]
  exact ⟨hhead,
    (belt_is_new_value
        { openOk := true, reads := fun _ => some 15, interruptAt := none,
          duration_s := 2, sample_interval_s := 1,
          stopRaises := false, closeRaises := false }).1 (15, true) hhead⟩

/-- The loop never reads the `stopRaises`/`closeRaises` flags: exceptions in
`g.stop()`/`g.close()` are caught and logged, so they influence neither the
rows nor the exit code. -/
theorem beltLoopAux_ignores_release (env : BeltEnv) (a b : Bool) :
    ∀ fuel k last got acc,
      beltLoopAux { env with stopRaises := a, closeRaises := b } fuel k last got acc
        = beltLoopAux env fuel k last got acc := by
  intro fuel
  induction fuel with
  | zero => intro k last got acc; rfl
  | succ n ih =>
      intro k last got acc
      simp only [beltLoopAux]
      by_cases hc : k * env.sample_interval_s < env.duration_s
      · simp only [if_pos hc]
        by_cases hint : env.interruptAt = some k
        · simp [hint]
        · simp only [if_neg hint]
          cases env.reads k with
          | some bpm => exact ih _ _ _ _
          | none =>
              by_cases habort : got = false ∧ NO_DATA_TIMEOUT < k * env.sample_interval_s
              · simp [habort]
              · simp only [if_neg habort]
                exact ih _ _ _ _
      · simp [hc]

/-- C9 counterexample: on the grace-period abort path the claim's "exactly
once" fails — the explicit stop-and-close before `return 2` is followed by the
`finally` block's stop-and-close (a `return` inside `try` still runs
`finally`), so release is attempted twice.  Concretely: device opens, never
yields data, 1-second ticks, 300-second duration. -/
theorem belt_release_twice_counterexample :
    (record_belt_breathing_rate
        { openOk := true, reads := fun _ => none, interruptAt := none,
          duration_s := 300, sample_interval_s := 1,
          stopRaises := false, closeRaises := false }).releaseAttempts = 2 ∧
    (record_belt_breathing_rate
        { openOk := true, reads := fun _ => none, interruptAt := none,
          duration_s := 300, sample_interval_s := 1,
          stopRaises := false, closeRaises := false }).releaseAttempts ≠ 1 := by
  have h := beltLoopAux_noData
      { openOk := true, reads := fun _ => none, interruptAt := none,
        duration_s := 300, sample_interval_s := 1,
        stopRaises := false, closeRaises := false }
      (fun _ => rfl) rfl 301 0 none []
      (by norm_num) ⟨9, Nat.zero_le _, by norm_num [NO_DATA_TIMEOUT], by norm_num⟩
  constructor <;> simp [record_belt_breathing_rate, h]

/-- C9 amended: after a successful open, release of the device is attempted at
least once on every exit path — exactly once on normal completion or interrupt
(exit 0), twice on the grace-period abort (exit 2) — and an error raised during
release is caught and logged without affecting the exit status or the rows. -/
theorem belt_release_on_exit (env : BeltEnv) (hopen : env.openOk = true) :
    1 ≤ (record_belt_breathing_rate env).releaseAttempts ∧
    ((record_belt_breathing_rate env).exitCode = 0 →
      (record_belt_breathing_rate env).releaseAttempts = 1) ∧
    ((record_belt_breathing_rate env).exitCode = 2 →
      (record_belt_breathing_rate env).releaseAttempts = 2) ∧
    (∀ a b, record_belt_breathing_rate { env with stopRaises := a, closeRaises := b }
      = record_belt_breathing_rate env) := by
  have hcode := beltLoopAux_code env (env.duration_s + 1) 0 none false []
  refine ⟨?_, ?_, ?_, ?_⟩
  · simp only [record_belt_breathing_rate, hopen, if_true]
    rcases hcode with ⟨_, h⟩ | ⟨_, h⟩ <;> simp [h]
  · simp only [record_belt_breathing_rate, hopen, if_true]
    rcases hcode with ⟨h0, h⟩ | ⟨h2, h⟩
    · intro _; exact h
    · intro hc
      rw [hc] at h2
      cases h2
  · simp only [record_belt_breathing_rate, hopen, if_true]
    rcases hcode with ⟨h0, h⟩ | ⟨h2, h⟩
    · intro hc
      rw [hc] at h0
      cases h0
    · intro _; exact h
  · intro a b
    simp only [record_belt_breathing_rate, beltLoopAux_ignores_release]

/-- Witness for C9 (amended) on a device that returns data at once: release is
attempted at least once. -/
theorem belt_release_on_exit_witness :
    1 ≤ (record_belt_breathing_rate
        { openOk := true, reads := fun _ => some 15, interruptAt := none,
          duration_s := 2, sample_interval_s := 1,
          stopRaises := false, closeRaises := false }).releaseAttempts :=
  (belt_release_on_exit
      { openOk := true, reads := fun _ => some 15, interruptAt := none,
        duration_s := 2, sample_interval_s := 1,
        stopRaises := false, closeRaises := false } rfl).1

/-- C10: if the device fails to open, the loop returns `1` before any other
side effect — the CSV file is never created, no sensor is selected or started,
no row is written, and no stop/close release is attempted. -/
theorem belt_open_failure_atomic (env : BeltEnv) (h : env.openOk = false) :
    (record_belt_breathing_rate env).exitCode = 1 ∧
    (record_belt_breathing_rate env).fileCreated = false ∧
    (record_belt_breathing_rate env).sensorStarted = false ∧
    (record_belt_breathing_rate env).releaseAttempts = 0 ∧
    (record_belt_breathing_rate env).rows = [] := by
  simp [record_belt_breathing_rate, h]

/-- Witness for C10 at a concrete environment whose open fails. -/
theorem belt_open_failure_atomic_witness :
    (record_belt_breathing_rate
        { openOk := false, reads := fun _ => some 15, interruptAt := none,
          duration_s := 300, sample_interval_s := 1,
          stopRaises := false, closeRaises := false }).exitCode = 1 ∧
    (record_belt_breathing_rate
        { openOk := false, reads := fun _ => some 15, interruptAt := none,
          duration_s := 300, sample_interval_s := 1,
          stopRaises := false, closeRaises := false }).fileCreated = false ∧
    (record_belt_breathing_rate
        { openOk := false, reads := fun _ => some 15, interruptAt := none,
          duration_s := 300, sample_interval_s := 1,
          stopRaises := false, closeRaises := false }).sensorStarted = false ∧
    (record_belt_breathing_rate
        { openOk := false, reads := fun _ => some 15, interruptAt := none,
          duration_s := 300, sample_interval_s := 1,
          stopRaises := false, closeRaises := false }).releaseAttempts = 0 ∧
    (record_belt_breathing_rate
        { openOk := false, reads := fun _ => some 15, interruptAt := none,
          duration_s := 300, sample_interval_s := 1,
          stopRaises := false, closeRaises := false }).rows = [] :=
  belt_open_failure_atomic _ rfl

end XM125
